
import Mathlib

/-!
# AppExpress request-dispatch core: a shallow embedding

This file embeds the request-lifecycle engine of the AppExpress framework
(route registration and resolution, path-pattern matching with parameter
extraction, the incoming/outgoing middleware pipeline, the dependency
registry, response finalization with the single-response guard, and body
compression) as executable Lean definitions, and proves the behavioural
properties stated in the specification against them.

Sources embedded:
* `appexpress.js` (class `AppExpress`): route buckets, `#handleRequest`,
  `#extractParamsFromRoute`, `#clearDependencies`, `#processHandlerResult`,
  `#sendErrorResult`, `#compress`, `#userCompression`, `#defaultCompression`,
  `#updateDynamic`, `compression`, `inject`.
* `types/response.js` (class `AppExpressResponse`): `send`, `json`,
  `redirect`, `empty`, `sendFile`, `render`, `#wrapForPromise`,
  `#wrapReturnForSource`, `#checkIfAlreadyPrepared`.
* `types/request.js` (class `AppExpressRequest`): `method`, `path`,
  `retrieve`.
* `types/misc.js`: `requestMethods`, `isCompressible`.

JavaScript data structures are embedded explicitly: a JS `Map` is an
insertion-ordered association list (`Map.prototype.set` overwrites the value
in place when the key exists, otherwise appends), a JS object used as a
header/dictionary gets the same ordered-update semantics, and JS exceptions
are surfaced as an `Option String` error component threaded through each
stateful operation.
-/

set_option autoImplicit false

universe u v

/-! ## JS `Map` / plain-object primitives -/

/-- Lookup in an insertion-ordered association list; `Map.prototype.get` /
JS object property read (case-sensitive, first — and only — entry for a key). -/
def jsMapGet? {V : Type u} : List (String × V) → String → Option V
  | [], _ => none
  | (k, v) :: rest, key => if k = key then some v else jsMapGet? rest key

/-- `Map.prototype.set` / JS object property write: if the key is present its
value is replaced in place (the key keeps its position in insertion order),
otherwise the pair is appended at the end. -/
def jsMapSet {V : Type u} : List (String × V) → String → V → List (String × V)
  | [], key, v => [(key, v)]
  | (k, w) :: rest, key, v =>
      if k = key then (k, v) :: rest else (k, w) :: jsMapSet rest key v

/-- `Map.prototype.has` / `in`. -/
def jsMapHas {V : Type u} (m : List (String × V)) (key : String) : Bool :=
  (jsMapGet? m key).isSome

/-- A JS `Map` object together with the plain own property `length` that
`AppExpress.#clearDependencies` assigns.  On a real JS `Map`, keys and values
live in the internal `[[MapData]]` slot; assigning `map.length = 0` creates an
ordinary own property named `length` and leaves `[[MapData]]` (hence
`Map.prototype.get/has/size`) untouched.  The embedding keeps both parts so
that the assignment performed by the source is represented rather than
dropped. -/
structure JSMap (V : Type u) where
  entries : List (String × V)
  lengthProp : Option Int
  deriving Repr, DecidableEq

/-- Fold a list of updates over a JS object literal, as done by a spread
`{ ...base, ...extra }`: later keys overwrite earlier values in place. -/
def jsObjSpread {V : Type u} (base extra : List (String × V)) : List (String × V) :=
  extra.foldl (fun acc kv => jsMapSet acc kv.1 kv.2) base

/-! ## String helpers mirroring the JS string operations used by the source

These work on the character list underlying the string so that every
definition evaluates by plain structural recursion. -/

/-- `String.prototype.split(sep)` for a one-character separator: splitting
the empty string yields `[""]`, and separators at the ends or adjacent to
each other produce empty parts, exactly as in JS. -/
def charSplit (sep : Char) : List Char → List (List Char)
  | [] => [[]]
  | c :: rest =>
      match charSplit sep rest with
      | [] => if c = sep then [[], []] else [[c]]
      | s :: ss => if c = sep then [] :: s :: ss else (c :: s) :: ss

/-- `s.split(sep)` on strings. -/
def jsSplit (s : String) (sep : Char) : List String :=
  (charSplit sep s.data).map (fun cs => ⟨cs⟩)

/-- The whitespace characters relevant to `String.prototype.trim` on header
tokens. -/
def jsIsSpace (c : Char) : Bool :=
  c = ' ' || c = '\t' || c = '\n' || c = '\r'

/-- `String.prototype.trim()`. -/
def jsTrim (s : String) : String :=
  ⟨((s.data.dropWhile jsIsSpace).reverse.dropWhile jsIsSpace).reverse⟩

/-- `String.prototype.toLowerCase()` (ASCII, which covers every string the
framework lowercases). -/
def jsToLower (s : String) : String :=
  ⟨s.data.map Char.toLower⟩

/-- `String.prototype.toUpperCase()` (ASCII). -/
def jsToUpper (s : String) : String :=
  ⟨s.data.map Char.toUpper⟩

/-- `request.path` normalization from `AppExpressRequest`'s constructor:
`path === '/' ? path : path.replace(/\/+$/, '')` (strip every trailing
slash unless the path is exactly the root). -/
def requestPathOf (p : String) : String :=
  if p = "/" then p
  else ⟨(p.data.reverse.dropWhile (· = '/')).reverse⟩

/-- `\w` character class of the JS route-pattern regexes. -/
def isWordChar (c : Char) : Bool :=
  c.isAlpha || c.isDigit || c = '_'

/-- One token of the compiled route regex. -/
inductive RouteTok where
  | lit (c : Char)
  | oneSeg
  | anything
  deriving Repr, DecidableEq

/-- Tokenizer worker, structurally recursive on a fuel bound: each step
consumes at least one pattern character, so any fuel above the pattern length
is enough and the `0` case is never reached from `tokenizeRoute`
(see `tokenizeRouteFuel_congr`). -/
def tokenizeRouteFuel : Nat → List Char → List RouteTok
  | 0, _ => []
  | _ + 1, [] => []
  | fuel + 1, ':' :: rest =>
      if (rest.takeWhile isWordChar).isEmpty then
        .lit ':' :: tokenizeRouteFuel fuel rest
      else
        .oneSeg :: tokenizeRouteFuel fuel (rest.dropWhile isWordChar)
  | fuel + 1, '*' :: rest => .anything :: tokenizeRouteFuel fuel rest
  | fuel + 1, c :: rest => .lit c :: tokenizeRouteFuel fuel rest

/-- Tokenize a route pattern, mirroring the two global `replace` passes:
a `:` followed by at least one `\w` character becomes a `([^/]+)` group
(consuming the maximal `\w+` run), each `*` becomes `.*`, and every other
character stands for itself. -/
def tokenizeRoute (cs : List Char) : List RouteTok :=
  tokenizeRouteFuel (cs.length + 1) cs

/-- Matcher worker, structurally recursive on a fuel bound: every recursive
call strictly shrinks `tokens.length + chars.length`, so any fuel above that
sum is enough and the `0` case is never reached from `reMatch`
(see `reMatchFuel_congr`). -/
def reMatchFuel : Nat → List RouteTok → List Char → Bool
  | 0, _, _ => false
  | _ + 1, [], cs => cs.isEmpty
  | fuel + 1, .lit c :: ts, cs =>
      match cs with
      | [] => false
      | c' :: cs' => c = c' && reMatchFuel fuel ts cs'
  | fuel + 1, .oneSeg :: ts, cs =>
      match cs with
      | [] => false
      | c :: cs' =>
          c ≠ '/' && (reMatchFuel fuel ts cs' || reMatchFuel fuel (.oneSeg :: ts) cs')
  | fuel + 1, .anything :: ts, cs =>
      reMatchFuel fuel ts cs ||
        (match cs with
         | [] => false
         | _ :: cs' => reMatchFuel fuel (.anything :: ts) cs')

/-- Anchored regex test for the compiled tokens: `lit c` consumes exactly `c`,
`oneSeg` consumes one or more non-`/` characters, `anything` consumes any
(possibly empty) run of characters. -/
def reMatch (ts : List RouteTok) (cs : List Char) : Bool :=
  reMatchFuel (ts.length + cs.length + 1) ts cs

/-- `new RegExp('^' + regexPattern + '$').test(requestPath)` for a route
pattern, i.e. the matcher used by both scan passes of `#handleRequest`. -/
def routeRegexTest (pattern path : String) : Bool :=
  reMatch (tokenizeRoute pattern.data) path.data

/-- `AppExpress.#extractParamsFromRoute`: split request path and pattern on
`/` dropping empty parts, bail out (leaving `params` unset, here `none`) on a
segment-count mismatch, then bind each `:`-prefixed pattern segment (name =
`substring(1)`) to the path segment at the same index, in order. -/
def extractParamsFromRoute (requestPath routePathPattern : String) :
    Option (List (String × String)) :=
  let pathParts := (jsSplit requestPath '/').filter (fun s => s.data.length ≠ 0)
  let patternParts := (jsSplit routePathPattern '/').filter (fun s => s.data.length ≠ 0)
  if patternParts.length ≠ pathParts.length then none
  else
    some <| (patternParts.zip pathParts).foldl
      (fun acc pp =>
        match pp.1.data with
        | ':' :: nameChars => jsMapSet acc ⟨nameChars⟩ pp.2
        | _ => acc)
      []

/-! ## Route table and route resolution

`types/misc.js#requestMethods` creates one insertion-ordered `Map` per HTTP
method plus an `all` bucket; `AppExpress.get/post/...` call
`this.#routes[method].set(path, handler)`. -/

/-- The per-method route maps created by `requestMethods()`. -/
structure RequestMethods (H : Type u) where
  get : List (String × H)
  post : List (String × H)
  put : List (String × H)
  patch : List (String × H)
  delete : List (String × H)
  options : List (String × H)
  all : List (String × H)

/-- `requestMethods()`: seven fresh empty maps. -/
def requestMethods {H : Type u} : RequestMethods H :=
  ⟨[], [], [], [], [], [], []⟩

/-- `AppExpress.get(path, handler)`, i.e. `this.#routes.get.set(path, handler)`. -/
def appExpressGet {H : Type u} (routes : RequestMethods H) (path : String) (handler : H) :
    RequestMethods H :=
  { routes with get := jsMapSet routes.get path handler }

/-- Scan pass over the request method's bucket (`#handleRequest`, first loop):
walk the bucket in registration order, skip the literal `'*'` pattern, and
stop at the first pattern whose compiled regex matches the request path. -/
def scanMethodBucket {H : Type u} : List (String × H) → String → Option H
  | [], _ => none
  | (p, h) :: rest, path =>
      if p = "*" then scanMethodBucket rest path
      else if routeRegexTest p path then some h
      else scanMethodBucket rest path

/-- Scan pass over the `all` bucket (`#handleRequest`, second loop): every
entry is tested — the literal `'*'` is *not* skipped here — and each match
overwrites `routeHandler`, so the last matching entry wins and the loop never
breaks early. -/
def scanAllBucket {H : Type u} (bucket : List (String × H)) (path : String) : Option H :=
  bucket.foldl
    (fun acc entry => if routeRegexTest entry.1 path then some entry.2 else acc)
    none

/-- Route resolution order of `#handleRequest`: exact lookup in the method
bucket, then the method-bucket scan, then the `all`-bucket scan, then the
literal `'*'` entry of the method bucket, and finally the literal `'*'` entry
of the `all` bucket. -/
def resolveRoute {H : Type u} (methodBucket allBucket : List (String × H))
    (path : String) : Option H :=
  match jsMapGet? methodBucket path with
  | some h => some h
  | none =>
    match scanMethodBucket methodBucket path with
    | some h => some h
    | none =>
      match scanAllBucket allBucket path with
      | some h => some h
      | none =>
        match jsMapGet? methodBucket "*" with
        | some h => some h
        | none => jsMapGet? allBucket "*"

/-! ## Dependency registry

`AppExpress.#dependencies` is a JS `Map` from `typeName` or
`typeName:identifier` to `{type, instance}`; the embedding keys the map by the
same derived string and stores the instance (abstracted to the value type
`V`). -/

/-- Key derivation shared by `inject` and `retrieve`:
`identifier ? objectName + ':' + identifier : objectName`. -/
def dependencyKey (objectName identifier : String) : String :=
  if identifier ≠ "" then objectName ++ ":" ++ identifier else objectName

/-- `AppExpress.inject(object, identifier)`: derive the key from the
instance's constructor name, raise if the key is already present (with an
identifier-specific message), otherwise store the instance. -/
def inject {V : Type u} (deps : JSMap V) (objectName identifier : String) (obj : V) :
    Except String (JSMap V) :=
  let key := dependencyKey objectName identifier
  if jsMapHas deps.entries key then
    if identifier ≠ "" then
      Except.error
        ("An instance of '" ++ objectName ++ "' with identifier '" ++ identifier ++
          "' is already injected.")
    else
      Except.error ("An instance of '" ++ objectName ++ "' is already injected.")
  else
    Except.ok { deps with entries := jsMapSet deps.entries key obj }

/-- `AppExpressRequest.retrieve(type, identifier)`: derive the same key and
raise a "No instance found" error when it is absent. -/
def retrieve {V : Type u} (deps : JSMap V) (objectName identifier : String) :
    Except String V :=
  let key := dependencyKey objectName identifier
  match jsMapGet? deps.entries key with
  | some v => Except.ok v
  | none =>
      if identifier ≠ "" then
        Except.error
          ("No instance found for '" ++ objectName ++ "' with identifier '" ++
            identifier ++ "'.")
      else
        Except.error ("No instance found for '" ++ objectName ++ "'.")

/-- `AppExpress.#clearDependencies`: the source executes
`this.#dependencies.length = 0` (and the same on the aliased
`context.req._dependencies`).  `#dependencies` is a JS `Map`, so this
assignment creates a plain own property `length` with value `0` and leaves the
map's entries untouched — `Map` state is only reachable through
`Map.prototype` methods, not through a `length` property. -/
def clearDependencies {V : Type u} (deps : JSMap V) : JSMap V :=
  { deps with lengthProp := some 0 }

/-! ## Response descriptors

The host runtime (the Appwrite open-runtimes server, an external collaborator
to this repository) supplies `context.res` with primitive constructors.
Modelled from the spec: the host's only contract toward the core is that each
primitive returns a descriptor shaped `{ body, statusCode, headers }` — a JS
object, hence always truthy; the in-repo test double
(`tests/utils/context.js`) builds exactly this triple for `res.send`. -/

/-- A header value (`setHeaders` accepts strings, numbers and booleans; the
framework itself writes strings and — for `content-length` — numbers). -/
inductive HVal where
  | str (s : String)
  | num (n : Int)
  | bool (b : Bool)
  deriving Repr, DecidableEq

/-- A response body as the framework distinguishes bodies: a string, a binary
`Buffer` (byte list), any other JSON-able value (abstracted by a tag), or a
still-pending promise (produced by `sendFile`/`render`) that resolves to a
body. -/
inductive Body where
  | str (s : String)
  | buf (b : List Nat)
  | obj (j : Nat)
  | pending (resolved : Body)
  deriving Repr, DecidableEq

/-- The response descriptor `{ body, statusCode, headers }`. -/
structure Descriptor where
  body : Body
  statusCode : Int
  headers : List (String × HVal)
  deriving Repr, DecidableEq

/-- `await body`: unwrap a pending promise chain to its resolved value
(`dynamic.body = await dynamic.body` in `#processHandlerResult`; rejected
promises are outside the claims modelled here). -/
def awaitBody : Body → Body
  | .pending b => awaitBody b
  | .str s => .str s
  | .buf b => .buf b
  | .obj j => .obj j

/-- `Buffer.isBuffer(body) ? body : typeof body === 'string' ?
Buffer.from(body) : ⊥` — the buffer `#compress` works on, if any.  A string's
bytes are modelled at code-point granularity. -/
def bodyToBuffer : Body → Option (List Nat)
  | .buf b => some b
  | .str s => some (s.data.map Char.toNat)
  | _ => none

/-! ## Compressible content types

`types/misc.js#isCompressible` tests the content type against four anchored,
case-insensitive alternation regexes; this is equivalent to membership of the
lowercased content type in the finite list of alternatives. -/

/-- All strings accepted by the four `contentTypePatterns` regexes. -/
def compressibleContentTypes : List String :=
  [ "text/html", "text/css", "text/plain", "text/xml", "text/x-component",
    "text/javascript",
    "application/x-javascript", "application/javascript", "application/json",
    "application/manifest+json", "application/vnd.api+json", "application/xml",
    "application/xhtml+xml", "application/rss+xml", "application/atom+xml",
    "application/vnd.ms-fontobject", "application/x-font-ttf",
    "application/x-font-opentype", "application/x-font-truetype",
    "image/svg+xml", "image/x-icon", "image/vnd.microsoft.icon",
    "font/ttf", "font/eot", "font/otf", "font/opentype" ]

/-- `isCompressible(contentType)` for a string content type. -/
def isCompressible (contentType : String) : Bool :=
  compressibleContentTypes.any (fun t => t = jsToLower contentType)

/-- `isCompressible` as applied to the value found at `headers['content-type']`:
a missing header or a non-string value (which `RegExp.test` would coerce to a
string such as `"undefined"`, `"123"`, `"true"`) never matches the anchored
type/subtype patterns. -/
def headerCompressible : Option HVal → Bool
  | some (.str s) => isCompressible s
  | _ => false

/-! ## Compression configuration (`AppExpress.compression`) -/

/-- `#compressionLevel`, the `{br, gzip, deflate}` options object (always
exactly these three keys, numeric values). -/
structure CompressionLevels where
  br : Int
  gzip : Int
  deflate : Int
  deriving Repr, DecidableEq

/-- The `#compression` field: `true`/`false`, or a custom
`CompressionHandler` whose `encodings` set is carried explicitly (its
`compress` function is abstracted by the `Compressors` record below). -/
inductive CompressionValue where
  | flag (b : Bool)
  | custom (encodings : List String)
  deriving Repr, DecidableEq

/-- JS truthiness of `#compression` as used by `if (!this.#compression)`:
`false` is falsy, `true` and any handler object are truthy. -/
def compressionTruthy : CompressionValue → Bool
  | .flag b => b
  | .custom _ => true

/-- The compression-related slice of the `AppExpress` instance state. -/
structure CompressionState where
  compression : CompressionValue
  compressionLevel : CompressionLevels
  deriving Repr, DecidableEq

/-- `AppExpress.#validateCompression(encoding, min, max)`:
`encoding < min || encoding > max` raises. -/
def validateCompression (encoding min max : Int) : Option String :=
  if encoding < min || encoding > max then
    some "Invalid compression level provided."
  else
    none

/-- `AppExpress.compression(value, options)` on an options object with its
three keys present (the `Object.keys(options).length !== 3` guard passes).
The sequence of mutations is kept exactly: `#compression` is assigned the new
value first, then the three levels are validated in the order br, gzip,
deflate (the first failure raising and aborting the call), and only then is
`#compressionLevel` assigned. -/
def compressionCall (st : CompressionState) (value : CompressionValue)
    (options : CompressionLevels) : CompressionState × Option String :=
  let st := { st with compression := value }
  match validateCompression options.br 1 11 with
  | some e => (st, some e)
  | none =>
    match validateCompression options.gzip 1 9 with
    | some e => (st, some e)
    | none =>
      match validateCompression options.deflate 1 9 with
      | some e => (st, some e)
      | none => ({ st with compressionLevel := options }, none)

/-! ## Compression application (`#compress` and helpers)

The actual byte-level compressors (`zlib.brotliCompressSync`, `zlib.gzipSync`,
`zlib.deflateSync` and a custom handler's `compress`) are external libraries;
the embedding abstracts each as a function from (quality level and) input
bytes to output bytes and quantifies over them. -/

/-- The external compressor functions. -/
structure Compressors where
  brC : Int → List Nat → List Nat
  gzipC : Int → List Nat → List Nat
  deflateC : Int → List Nat → List Nat
  userC : List Nat → List Nat

/-- Compressors that return the input unchanged — one concrete inhabitant
used by witnesses. -/
def idCompressors : Compressors :=
  ⟨fun _ b => b, fun _ b => b, fun _ b => b, fun b => b⟩

/-- `AppExpress.#updateDynamic(dynamic, headers, body)`: store the new body
and headers and set `headers['content-length'] = body.length`. -/
def updateDynamic (dyn : Descriptor) (headers : List (String × HVal))
    (body : List Nat) : Descriptor :=
  { dyn with
    body := .buf body
    headers := jsMapSet headers "content-length" (.num body.length) }

/-- `AppExpress.#defaultCompression(encodings, headers, buffer, dynamic)`:
skip when the content type is not compressible, otherwise pick `br`, then
`gzip`, then `deflate` — whichever the client's `accept-encoding` list
contains first in that preference order — compress at the configured level,
record `content-encoding`, and update body and `content-length`.  If the
client accepts none of the three, the descriptor is left untouched. -/
def defaultCompression (fns : Compressors) (levels : CompressionLevels)
    (encodings : List String) (headers : List (String × HVal))
    (buffer : List Nat) (dyn : Descriptor) : Descriptor :=
  if ¬ headerCompressible (jsMapGet? headers "content-type") then dyn
  else if encodings.contains "br" then
    updateDynamic dyn (jsMapSet headers "content-encoding" (.str "br"))
      (fns.brC levels.br buffer)
  else if encodings.contains "gzip" then
    updateDynamic dyn (jsMapSet headers "content-encoding" (.str "gzip"))
      (fns.gzipC levels.gzip buffer)
  else if encodings.contains "deflate" then
    updateDynamic dyn (jsMapSet headers "content-encoding" (.str "deflate"))
      (fns.deflateC levels.deflate buffer)
  else dyn

/-- `AppExpress.#userCompression(encodings, headers, buffer, dynamic)` for a
custom handler: find the first client encoding the handler supports (in the
client's order), require a compressible content type, compress with the
handler, set `content-encoding` to the comma-joined list of *all* handler
encodings, and update the descriptor.  Returns `none` where the source
returns `false` (no handler configured, unsupported encoding, or
non-compressible content). -/
def userCompression (fns : Compressors) (value : CompressionValue)
    (encodings : List String) (headers : List (String × HVal))
    (buffer : List Nat) (dyn : Descriptor) : Option Descriptor :=
  match value with
  | .flag _ => none
  | .custom handlerEncodings =>
      let supportedEncoding := encodings.find? (fun e => handlerEncodings.contains e)
      if supportedEncoding.isNone ||
          ¬ headerCompressible (jsMapGet? headers "content-type") then
        none
      else
        some <| updateDynamic dyn
          (jsMapSet headers "content-encoding"
            (.str (String.intercalate ", " handlerEncodings)))
          (fns.userC buffer)

/-- `AppExpress.#compress(dynamic)`: skip when compression is disabled, when
the request has no (or an empty) `accept-encoding` header, or when the body is
neither a `Buffer` nor a string; otherwise split the header on commas, trim
each token, and apply the user compression if it handles the request, else the
default compression. -/
def compressDynamic (compression : CompressionValue) (levels : CompressionLevels)
    (fns : Compressors) (reqHeaders : List (String × String))
    (dyn : Descriptor) : Descriptor :=
  if ¬ compressionTruthy compression then dyn
  else
    match jsMapGet? reqHeaders "accept-encoding" with
    | none => dyn
    | some acceptEncoding =>
      if acceptEncoding = "" then dyn
      else
        let encodings := (jsSplit acceptEncoding ',').map jsTrim
        match bodyToBuffer dyn.body with
        | none => dyn
        | some buffer =>
          match userCompression fns compression encodings dyn.headers buffer dyn with
          | some compressed => compressed
          | none => defaultCompression fns levels encodings dyn.headers buffer dyn

/-! ## The response object (`AppExpressResponse`) and the single-response guard -/

/-- The per-invocation context state the response object and dispatcher
mutate: the in-flight descriptor `context.res.dynamic`, the response object's
`#customHeaders`, the configured view-engine extensions
(`context.res._engine`), and the dependency registry (`#dependencies`,
aliased by `context.req._dependencies`). -/
structure InvocationCtx where
  dynamic : Option Descriptor
  customHeaders : List (String × HVal)
  engines : List String
  deps : JSMap Nat
  deriving Repr, DecidableEq

/-- The error message of `#checkIfAlreadyPrepared`. -/
def multiReturnMessage : String :=
  "A response has already been prepared. Cannot initiate another response. Did you call response methods like `response.send` or `response.json` multiple times in the same request handler?"

/-- `#wrapReturnForSource(data)`: `#checkIfAlreadyPrepared()` throws when
`context.res.dynamic` is truthy (every descriptor the host primitives return
is an object, hence truthy; an unset `dynamic` is `undefined`, hence falsy),
otherwise `dynamic` is assigned. -/
def wrapReturnForSource (ctx : InvocationCtx) (data : Descriptor) :
    InvocationCtx × Option String :=
  if ctx.dynamic.isSome then (ctx, some multiReturnMessage)
  else ({ ctx with dynamic := some data }, none)

/-- Host primitive `context.res.send(body, statusCode, headers)`.
Modelled from the spec: the host returns the descriptor triple
`{ body, statusCode, headers }` (as the in-repo test double also does). -/
def hostSend (body : Body) (statusCode : Int) (headers : List (String × HVal)) :
    Descriptor :=
  ⟨body, statusCode, headers⟩

/-- Host primitive `context.res.json(data, statusCode, headers)`.
Modelled from the spec: a descriptor carrying the JSON-able data. -/
def hostJson (data : Nat) (statusCode : Int) (headers : List (String × HVal)) :
    Descriptor :=
  ⟨.obj data, statusCode, headers⟩

/-- Host primitive `context.res.redirect(url, statusCode, headers)`.
Modelled from the spec: a descriptor at the given status pointing at `url`. -/
def hostRedirect (url : String) (statusCode : Int)
    (headers : List (String × HVal)) : Descriptor :=
  ⟨.str "", statusCode, jsMapSet headers "location" (.str url)⟩

/-- `response.send(content, statusCode, contentType)`: wrap the host
descriptor whose headers are `{'content-type': contentType,
...customHeaders}`. -/
def respSend (ctx : InvocationCtx) (content : Body) (statusCode : Int)
    (contentType : String) : InvocationCtx × Option String :=
  wrapReturnForSource ctx
    (hostSend content statusCode
      (jsObjSpread [("content-type", .str contentType)] ctx.customHeaders))

/-- `response.empty()`: `this.#response.send('', 204, this.#customHeaders)`. -/
def respEmpty (ctx : InvocationCtx) : InvocationCtx × Option String :=
  wrapReturnForSource ctx (hostSend (.str "") 204 ctx.customHeaders)

/-- `response.json(data, statusCode)`. -/
def respJson (ctx : InvocationCtx) (data : Nat) (statusCode : Int) :
    InvocationCtx × Option String :=
  wrapReturnForSource ctx (hostJson data statusCode ctx.customHeaders)

/-- `response.redirect(url)`: a 301 redirect through the host primitive. -/
def respRedirect (ctx : InvocationCtx) (url : String) :
    InvocationCtx × Option String :=
  wrapReturnForSource ctx (hostRedirect url 301 ctx.customHeaders)

/-- `#wrapForPromise(promise, statusCode)`: wrap a pending body with a
`text/html` content type merged with the custom headers. -/
def wrapForPromise (ctx : InvocationCtx) (promiseBody : Body) (statusCode : Int) :
    InvocationCtx × Option String :=
  wrapReturnForSource ctx
    (hostSend promiseBody statusCode
      (jsObjSpread [("content-type", .str "text/html")] ctx.customHeaders))

/-- `response.sendFile(filePath, statusCode)`: `#readFile` synchronously
yields a promise (abstracted by `contents`), `#wrapForPromise` wraps it; the
surrounding `try`/`catch` turns any throw — in particular the multi-return
guard — into `this.send('Internal Server Error', 500, 'text/plain')`, which
itself re-runs the guard. -/
def respSendFile (ctx : InvocationCtx) (contents : Body) (statusCode : Int) :
    InvocationCtx × Option String :=
  match wrapForPromise ctx (.pending contents) statusCode with
  | (ctx', none) => (ctx', none)
  | (_, some _) => respSend ctx (.str "Internal Server Error") 500 "text/plain"

/-- The file-extension probe `/(?:\.([^.]+))?$/.exec(filePath)[1]`: the
non-empty run of non-dot characters after the last dot, if any. -/
def fileExtOf (s : String) : Option String :=
  let parts := jsSplit s '.'
  if parts.length ≤ 1 then none
  else
    match parts.getLast? with
    | some last => if last = "" then none else some last
    | none => none

/-- `response.render(filePath, options, statusCode)`: raise when no engine is
registered; with no file extension, fall back to the single registered
engine's extension or raise when several are registered; then hand the
engine's (possibly rejected) promise — abstracted by `rendered` — to
`#wrapForPromise` inside the same `try`/`catch` as `sendFile`.  An extension
missing from the engine map is not a synchronous error: the promise rejects
later, so the guard and descriptor behaviour is the same. -/
def respRender (ctx : InvocationCtx) (filePath : String) (rendered : Body)
    (statusCode : Int) : InvocationCtx × Option String :=
  if ctx.engines.isEmpty then (ctx, some "No view engine found.")
  else
    let proceed :=
      match wrapForPromise ctx (.pending rendered) statusCode with
      | (ctx', none) => (ctx', none)
      | (_, some _) => respSend ctx (.str "Internal Server Error") 500 "text/plain"
    match fileExtOf filePath with
    | some _ => proceed
    | none =>
        if ctx.engines.length = 1 then proceed
        else
          (ctx,
            some "You seem to have set multiple view engines; please use file paths with extension.")

/-- The response-producing operations of `AppExpressResponse` named by the
single-response claim. -/
inductive RespOp where
  | send (content : Body) (statusCode : Int) (contentType : String)
  | json (data : Nat) (statusCode : Int)
  | redirect (url : String)
  | empty
  | sendFile (contents : Body) (statusCode : Int)
  | render (filePath : String) (rendered : Body) (statusCode : Int)

/-- Run one response operation against the invocation context. -/
def runOp : RespOp → InvocationCtx → InvocationCtx × Option String
  | .send content statusCode contentType, ctx => respSend ctx content statusCode contentType
  | .json data statusCode, ctx => respJson ctx data statusCode
  | .redirect url, ctx => respRedirect ctx url
  | .empty, ctx => respEmpty ctx
  | .sendFile contents statusCode, ctx => respSendFile ctx contents statusCode
  | .render filePath rendered statusCode, ctx => respRender ctx filePath rendered statusCode

/-- The configuration conditions under which an operation is
response-producing: `render` needs at least one registered engine, and either
an explicit file extension or exactly one engine.  The other five operations
produce a descriptor unconditionally. -/
def opWellFormed (engines : List String) : RespOp → Prop
  | .render filePath _ _ =>
      engines ≠ [] ∧ ((fileExtOf filePath).isSome ∨ engines.length = 1)
  | _ => True

/-! ## The dispatcher (`#handleRequest`, `#processHandlerResult`,
`#sendErrorResult`)

Handlers and incoming middlewares are arbitrary functions over the invocation
context that may set `context.res.dynamic` and may throw; outgoing
middlewares (response interceptors) receive the in-flight descriptor and may
rewrite it or throw.  The dispatcher model additionally records how many
incoming and outgoing middlewares ran and whether the route handler ran, so
that the pipeline claims can speak about what was and was not invoked. -/

/-- A request handler / incoming middleware
(`(request, response, log, error) => ...`). -/
def Handler : Type :=
  InvocationCtx → InvocationCtx × Option String

/-- An outgoing middleware (`(request, interceptor, log, error) => ...`). -/
def OutgoingMw : Type :=
  Descriptor → Descriptor × Option String

/-- The `AppExpress` instance configuration an invocation sees: the request
method's route bucket and the `all` bucket (`this.#routes[method]` /
`this.#routes.all`), the middleware chains, the view-engine extensions, the
dependency registry, and the compression settings. -/
structure AppConfig where
  methodBucket : List (String × Handler)
  allBucket : List (String × Handler)
  incoming : List Handler
  outgoing : List OutgoingMw
  engines : List String
  deps : JSMap Nat
  compression : CompressionValue
  compressionLevel : CompressionLevels

/-- The host request object: raw method, raw path and headers. -/
structure HostRequest where
  method : String
  path : String
  headers : List (String × String)

/-- `AppExpressRequest#method`: `this.#request.method.toLowerCase()`. -/
def requestMethod (req : HostRequest) : String :=
  jsToLower req.method

/-- The fresh per-invocation context built at the top of `#handleRequest`:
no descriptor yet, no custom headers, the configured engines, and the
instance's dependency registry aliased into the request. -/
def initialCtx (cfg : AppConfig) : InvocationCtx :=
  ⟨none, [], cfg.engines, cfg.deps⟩

/-- What one invocation produced, with the instrumentation counters. -/
structure DispatchResult where
  ctx : InvocationCtx
  outcome : Except String Descriptor
  ranIncoming : Nat
  ranHandler : Bool
  ranOutgoing : Nat

/-- `#sendErrorResult(error)`: log and return
`context.res.send(error, 500, {'content-type': 'text/plain'})`. -/
def sendErrorResult (error : String) : Descriptor :=
  hostSend (.str error) 500 [("content-type", .str "text/plain")]

/-- The incoming-middleware loop of `#handleRequest`: run each middleware in
registration order; a throw aborts the loop (and the invocation), and after
each middleware the loop breaks as soon as `#contextHasReturn()`, i.e. as
soon as a descriptor exists.  Returns the context, the number of middlewares
that ran, and the uncaught error if one threw. -/
def runIncoming : List Handler → InvocationCtx → InvocationCtx × Nat × Option String
  | [], ctx => (ctx, 0, none)
  | mw :: rest, ctx =>
      match mw ctx with
      | (ctx', some e) => (ctx', 1, some e)
      | (ctx', none) =>
          if ctx'.dynamic.isSome then (ctx', 1, none)
          else
            let (ctx'', n, e) := runIncoming rest ctx'
            (ctx'', n + 1, e)

/-- The outgoing-interceptor loop of `#processHandlerResult`: run each
interceptor in registration order over the descriptor; a throw aborts the
loop (and is caught by `#processHandlerResult`'s `try`). -/
def runOutgoing : List OutgoingMw → Descriptor → Descriptor × Nat × Option String
  | [], dyn => (dyn, 0, none)
  | mw :: rest, dyn =>
      match mw dyn with
      | (dyn', some e) => (dyn', 1, some e)
      | (dyn', none) =>
          let (dyn'', n, e) := runOutgoing rest dyn'
          (dyn'', n + 1, e)

/-- JS string interpolation `${error}` applied to a caught `Error` object. -/
def jsErrorString (message : String) : String :=
  "Error: " ++ message

/-- `#processHandlerResult()`: clear the dependency registry first, then — if
a descriptor exists — await its body, run the outgoing interceptors over it,
compress it, and return it; a throw inside that `try` becomes
`#sendErrorResult`.  Without a descriptor, return the "Invalid return" error
result. -/
def processHandlerResult (cfg : AppConfig) (req : HostRequest)
    (fns : Compressors) (ctx : InvocationCtx) :
    InvocationCtx × Except String Descriptor × Nat :=
  let ctx := { ctx with deps := clearDependencies ctx.deps }
  match ctx.dynamic with
  | some dyn =>
      let dyn := { dyn with body := awaitBody dyn.body }
      match runOutgoing cfg.outgoing dyn with
      | (_, n, some e) => (ctx, Except.ok (sendErrorResult (jsErrorString e)), n)
      | (dyn', n, none) =>
          (ctx,
            Except.ok
              (compressDynamic cfg.compression cfg.compressionLevel fns
                req.headers dyn'),
            n)
  | none =>
      (ctx,
        Except.ok
          (sendErrorResult
            ("Invalid return from route " ++ requestPathOf req.path ++
              ". Use 'response.empty()' if no response is expected.")),
        0)

/-- `#handleRequest()` (via `attach(context)`): resolve the route, run the
incoming middlewares (a throw propagates to the host), finalize a
middleware-produced response without invoking the route handler, otherwise
run the resolved handler (a throw propagates) and finalize, and with no route
return the express-style "Cannot METHOD 'path'." error result — note that the
registry is *not* cleared on this last path.  The `request.params` side
effect of the scan pass is covered separately by `extractParamsFromRoute`. -/
def handleRequest (cfg : AppConfig) (req : HostRequest) (fns : Compressors) :
    DispatchResult :=
  let path := requestPathOf req.path
  let routeHandler := resolveRoute cfg.methodBucket cfg.allBucket path
  match runIncoming cfg.incoming (initialCtx cfg) with
  | (ctx, nIn, some e) => ⟨ctx, Except.error e, nIn, false, 0⟩
  | (ctx, nIn, none) =>
      if ctx.dynamic.isSome then
        let (ctx', outcome, nOut) := processHandlerResult cfg req fns ctx
        ⟨ctx', outcome, nIn, false, nOut⟩
      else
        match routeHandler with
        | some handler =>
            match handler ctx with
            | (ctx', some e) => ⟨ctx', Except.error e, nIn, true, 0⟩
            | (ctx', none) =>
                let (ctx'', outcome, nOut) := processHandlerResult cfg req fns ctx'
                ⟨ctx'', outcome, nIn, true, nOut⟩
        | none =>
            ⟨ctx,
              Except.ok
                (sendErrorResult
                  ("Cannot " ++ jsToUpper (requestMethod req) ++ " '" ++ path ++ "'.")),
              nIn, false, 0⟩

/-! ## Pipeline helper notions and lemmas -/

/-- The context after running a middleware prefix, ignoring errors (used only
under `inertOn`, which rules them out). -/
def applyInert (mws : List Handler) (ctx : InvocationCtx) : InvocationCtx :=
  mws.foldl (fun c mw => (mw c).1) ctx

/-- A middleware prefix is inert along the states it actually encounters:
each middleware returns without throwing and leaves no descriptor behind. -/
def inertOn : List Handler → InvocationCtx → Prop
  | [], _ => True
  | mw :: rest, ctx =>
      (mw ctx).2 = none ∧ ((mw ctx).1).dynamic = none ∧ inertOn rest ((mw ctx).1)

/-! ## Concrete handlers and configurations used by the claim instances -/

/-- A route handler that performs two response-producing calls in sequence,
as in the repository's own multi-return test
(`response.send('ok'); response.send('ok');`): the second call's throw
propagates out of the handler. -/
def twoCallHandler (c1 c2 : RespOp) : Handler := fun ctx =>
  match runOp c1 ctx with
  | (ctx1, some e) => (ctx1, some e)
  | (ctx1, none) => runOp c2 ctx1

/-- An `AppExpress` instance with a single route for the request method, no
middleware, and default compression. -/
def singleRouteConfig (pattern : String) (h : Handler) (engines : List String)
    (deps : JSMap Nat) : AppConfig :=
  ⟨[(pattern, h)], [], [], [], engines, deps, .flag true, ⟨11, 6, 6⟩⟩

/-- A handler producing a fixed descriptor (e.g. a plain `text/plain` body). -/
def producerHandler (d : Descriptor) : Handler := fun ctx =>
  ({ ctx with dynamic := some d }, none)

/-- An incoming middleware that produces a fixed descriptor, like the
repository's favicon middleware. -/
def producerMiddleware (d : Descriptor) : Handler :=
  producerHandler d

/-- An outgoing interceptor that inspects but does not change the response. -/
def passOutgoing : OutgoingMw := fun dyn => (dyn, none)

/-- An outgoing interceptor that overwrites the status code. -/
def statusOutgoing (code : Int) : OutgoingMw := fun dyn =>
  ({ dyn with statusCode := code }, none)

/-- The `"pong"` descriptor of the spec's first example scenario. -/
def pongDescriptor : Descriptor :=
  ⟨.str "pong", 200, [("content-type", .str "text/plain")]⟩

/-- A handler that retrieves the `Repo` instance injected under `identifier`
from the per-request registry and answers with it, throwing the
"No instance found" error if it is absent. -/
def retrieveRepoHandler (identifier : String) : Handler := fun ctx =>
  match retrieve ctx.deps "Repo" identifier with
  | .ok v => ({ ctx with dynamic := some ⟨.obj v, 200, []⟩ }, none)
  | .error e => (ctx, some e)

/-- An `AppExpress` instance whose `GET /repo` route retrieves the injected
`Repo` instance. -/
def retrieveRepoConfig (deps : JSMap Nat) (identifier : String) : AppConfig :=
  ⟨[("/repo", retrieveRepoHandler identifier)], [], [], [], [], deps,
    .flag true, ⟨11, 6, 6⟩⟩

/-- An `AppExpress` instance with no routes at all. -/
def emptyRoutesConfig : AppConfig :=
  ⟨[], [], [], [], [], ⟨[], none⟩, .flag true, ⟨11, 6, 6⟩⟩

/-! ## Helper lemmas

General lemmas about the embedded primitives, used by the property theorems
below. -/

/-! ## Path matcher

`AppExpress.#handleRequest` turns a registered route pattern into a regex by
`pattern.replace(/:\w+/g, '([^/]+)').replace(/\*/g, '.*')`, anchors it with
`'^' + regexPattern + '$'`, and tests the request path against it.  The
embedding tokenizes the pattern into the exact three shapes this produces —
literal characters, one `([^/]+)` group per `:\w+` parameter, and `.*` per
`*` — and implements the anchored regex test by backtracking search. -/

/-- Dropping a prefix never lengthens a list (termination helper for the
pattern tokenizer). -/
theorem dropWhileLengthLe {α : Type u} (p : α → Bool) (l : List α) :
    (l.dropWhile p).length ≤ l.length := by
  induction l with
  | nil => simp [List.dropWhile]
  | cons a as ih =>
      by_cases h : p a
      · simpa [List.dropWhile, h] using Nat.le_succ_of_le ih
      · simp [List.dropWhile, h]

/-- The tokenizer worker is fuel-irrelevant above the pattern length, so
`tokenizeRoute`'s allowance is exact. -/
theorem tokenizeRouteFuel_congr :
    ∀ (f g : Nat) (cs : List Char), cs.length < f → cs.length < g →
      tokenizeRouteFuel f cs = tokenizeRouteFuel g cs := by
  intro f
  induction f with
  | zero => intro g cs hf; omega
  | succ f ih =>
      intro g cs hf hg
      match g, cs with
      | 0, cs => omega
      | g + 1, [] => simp [tokenizeRouteFuel]
      | g + 1, c :: rest =>
          simp only [List.length_cons] at hf hg
          have hlen := dropWhileLengthLe isWordChar rest
          by_cases hc : c = ':'
          · subst hc
            simp only [tokenizeRouteFuel]
            rw [ih g rest (by omega) (by omega),
              ih g (rest.dropWhile isWordChar) (by omega) (by omega)]
          · by_cases hs : c = '*'
            · subst hs
              simp only [tokenizeRouteFuel]
              rw [ih g rest (by omega) (by omega)]
            · simp only [tokenizeRouteFuel, hc, hs]
              rw [ih g rest (by omega) (by omega)]

/-- The matcher worker is fuel-irrelevant above `tokens + chars`, so
`reMatch`'s allowance is exact. -/
theorem reMatchFuel_congr :
    ∀ (f g : Nat) (ts : List RouteTok) (cs : List Char),
      ts.length + cs.length < f → ts.length + cs.length < g →
      reMatchFuel f ts cs = reMatchFuel g ts cs := by
  intro f
  induction f with
  | zero => intro g ts cs hf; omega
  | succ f ih =>
      intro g ts cs hf hg
      match g, ts, cs with
      | 0, ts, cs => omega
      | g + 1, [], cs => simp [reMatchFuel]
      | g + 1, .lit c :: ts, [] => simp [reMatchFuel]
      | g + 1, .lit c :: ts, c' :: cs =>
          simp only [List.length_cons] at hf hg
          simp only [reMatchFuel]
          rw [ih g ts cs (by omega) (by omega)]
      | g + 1, .oneSeg :: ts, [] => simp [reMatchFuel]
      | g + 1, .oneSeg :: ts, c :: cs =>
          simp only [List.length_cons] at hf hg
          simp only [reMatchFuel]
          rw [ih g ts cs (by omega) (by omega),
            ih g (.oneSeg :: ts) cs (by simp; omega) (by simp; omega)]
      | g + 1, .anything :: ts, [] =>
          simp only [List.length_cons, List.length_nil] at hf hg
          simp only [reMatchFuel]
          rw [ih g ts [] (by simp; omega) (by simp; omega)]
      | g + 1, .anything :: ts, c :: cs =>
          simp only [List.length_cons] at hf hg
          simp only [reMatchFuel]
          rw [ih g ts (c :: cs) (by simp; omega) (by simp; omega),
            ih g (.anything :: ts) cs (by simp; omega) (by simp; omega)]

/-- Running an inert middleware list just threads the state through, runs all
of them, and throws nothing. -/
theorem runIncoming_inert :
    ∀ (mws : List Handler) (ctx : InvocationCtx), inertOn mws ctx →
      runIncoming mws ctx = (applyInert mws ctx, mws.length, none) := by
  intro mws
  induction mws with
  | nil => intro ctx _; simp [runIncoming, applyInert]
  | cons mw rest ih =>
      intro ctx h
      obtain ⟨he, hd, hrest⟩ := h
      simp only [runIncoming]
      rw [(by cases hmw : mw ctx with
            | mk a b => cases b with
              | none => rfl
              | some e => rw [hmw] at he; exact absurd he (by simp) :
          mw ctx = ((mw ctx).1, none))]
      simp only [hd, Option.isSome_none, Bool.false_eq_true, if_false]
      rw [ih ((mw ctx).1) hrest]
      simp [applyInert, List.foldl_cons]

/-- An inert middleware list keeps `dynamic` unset. -/
theorem applyInert_dynamic :
    ∀ (mws : List Handler) (ctx : InvocationCtx), inertOn mws ctx →
      ctx.dynamic = none → (applyInert mws ctx).dynamic = none := by
  intro mws
  induction mws with
  | nil => intro ctx _ h0; simpa [applyInert] using h0
  | cons mw rest ih =>
      intro ctx h _
      obtain ⟨_, hd, hrest⟩ := h
      simpa [applyInert, List.foldl_cons] using ih ((mw ctx).1) hrest hd

/-- Splitting the incoming loop after an inert prefix: the prefix contributes
its full length to the run count and hands its final state to the rest. -/
theorem runIncoming_append_inert :
    ∀ (pre rest : List Handler) (ctx : InvocationCtx), inertOn pre ctx →
      runIncoming (pre ++ rest) ctx =
        ((runIncoming rest (applyInert pre ctx)).1,
          (runIncoming rest (applyInert pre ctx)).2.1 + pre.length,
          (runIncoming rest (applyInert pre ctx)).2.2) := by
  intro pre
  induction pre with
  | nil => intro rest ctx _; simp [applyInert]
  | cons mw pre' ih =>
      intro rest ctx h
      obtain ⟨he, hd, hrest⟩ := h
      obtain ⟨ctx1, hctx1⟩ : ∃ c1, mw ctx = (c1, none) := by
        cases hmw : mw ctx with
        | mk a b =>
            cases b with
            | none => exact ⟨a, rfl⟩
            | some e => rw [hmw] at he; simp at he
      rw [hctx1] at hd hrest
      dsimp only at hd hrest
      simp only [List.cons_append, runIncoming, hctx1]
      simp only [hd, Option.isSome_none, Bool.false_eq_true, if_false, List.append_eq]
      rw [ih rest ctx1 hrest]
      simp only [applyInert, List.foldl_cons, hctx1, List.length_cons, Prod.mk.injEq,
        true_and, and_true]
      exact Nat.add_assoc _ _ _

/-- When no outgoing interceptor throws, all of them run. -/
theorem runOutgoing_count :
    ∀ (mws : List OutgoingMw) (dyn : Descriptor),
      (runOutgoing mws dyn).2.2 = none → (runOutgoing mws dyn).2.1 = mws.length := by
  intro mws
  induction mws with
  | nil => intro dyn _; simp [runOutgoing]
  | cons mw rest ih =>
      intro dyn h
      simp only [runOutgoing] at h ⊢
      cases hmw : mw dyn with
      | mk dyn' e =>
          rw [hmw] at h
          cases e with
          | some err => dsimp only at h; simp at h
          | none =>
              dsimp only at h ⊢
              rw [ih dyn' h]
              simp

/-- With no descriptor prepared and a well-formed configuration, every
response operation succeeds and installs a descriptor. -/
theorem runOp_fresh (ctx : InvocationCtx) (c : RespOp)
    (h0 : ctx.dynamic = none) (hwf : opWellFormed ctx.engines c) :
    ∃ d, runOp c ctx = ({ ctx with dynamic := some d }, none) := by
  cases c with
  | send content s ct =>
      exact ⟨hostSend content s (jsObjSpread [("content-type", .str ct)] ctx.customHeaders),
        by simp [runOp, respSend, wrapReturnForSource, h0]⟩
  | json data s =>
      exact ⟨hostJson data s ctx.customHeaders,
        by simp [runOp, respJson, wrapReturnForSource, h0]⟩
  | redirect url =>
      exact ⟨hostRedirect url 301 ctx.customHeaders,
        by simp [runOp, respRedirect, wrapReturnForSource, h0]⟩
  | empty =>
      exact ⟨hostSend (.str "") 204 ctx.customHeaders,
        by simp [runOp, respEmpty, wrapReturnForSource, h0]⟩
  | sendFile contents s =>
      exact ⟨hostSend (.pending contents) s
          (jsObjSpread [("content-type", .str "text/html")] ctx.customHeaders),
        by simp [runOp, respSendFile, wrapForPromise, wrapReturnForSource, h0]⟩
  | render f b s =>
      obtain ⟨hne, hor⟩ := hwf
      obtain ⟨e0, es, hE⟩ : ∃ x xs, ctx.engines = x :: xs := by
        cases hEng : ctx.engines with
        | nil => exact absurd hEng hne
        | cons x xs => exact ⟨x, xs, rfl⟩
      refine ⟨hostSend (.pending b) s
          (jsObjSpread [("content-type", .str "text/html")] ctx.customHeaders), ?_⟩
      cases hext : fileExtOf f with
      | some e =>
          simp [runOp, respRender, hE, hext, wrapForPromise, wrapReturnForSource, h0,
            List.isEmpty]
      | none =>
          have hes : es = [] := by
            rcases hor with h | h
            · rw [hext] at h; simp at h
            · rw [hE] at h; simpa using h
          subst hes
          simp [runOp, respRender, hE, hext, wrapForPromise, wrapReturnForSource, h0,
            List.isEmpty]

/-- With a descriptor already prepared, every well-formed response operation
raises the multi-return error and leaves the context unchanged. -/
theorem runOp_prepared (ctx : InvocationCtx) (c : RespOp)
    (h0 : ctx.dynamic.isSome = true) (hwf : opWellFormed ctx.engines c) :
    runOp c ctx = (ctx, some multiReturnMessage) := by
  cases c with
  | send content s ct => simp [runOp, respSend, wrapReturnForSource, h0]
  | json data s => simp [runOp, respJson, wrapReturnForSource, h0]
  | redirect url => simp [runOp, respRedirect, wrapReturnForSource, h0]
  | empty => simp [runOp, respEmpty, wrapReturnForSource, h0]
  | sendFile contents s =>
      simp [runOp, respSendFile, respSend, wrapForPromise, wrapReturnForSource, h0]
  | render f b s =>
      obtain ⟨hne, hor⟩ := hwf
      obtain ⟨e0, es, hE⟩ : ∃ x xs, ctx.engines = x :: xs := by
        cases hEng : ctx.engines with
        | nil => exact absurd hEng hne
        | cons x xs => exact ⟨x, xs, rfl⟩
      cases hext : fileExtOf f with
      | some e =>
          simp [runOp, respRender, hE, hext, respSend, wrapForPromise,
            wrapReturnForSource, h0, List.isEmpty]
      | none =>
          have hes : es = [] := by
            rcases hor with h | h
            · rw [hext] at h; simp at h
            · rw [hE] at h; simpa using h
          subst hes
          simp [runOp, respRender, hE, hext, respSend, wrapForPromise,
            wrapReturnForSource, h0, List.isEmpty]

/-- The method-bucket scan ignores every `'*'` entry, wherever it sits. -/
theorem scanMethodBucketFilterStar {H : Type u} :
    ∀ (bucket : List (String × H)) (path : String),
      scanMethodBucket bucket path =
        scanMethodBucket (bucket.filter (fun e => e.1 != "*")) path := by
  intro bucket path
  induction bucket with
  | nil => rfl
  | cons e rest ih =>
      cases e with
      | mk p h =>
          by_cases hp : p = "*"
          · simp [scanMethodBucket, hp, ih]
          · by_cases hm : routeRegexTest p path
            · simp [scanMethodBucket, hp, hm]
            · simp [scanMethodBucket, hp, hm, ih]

/-- `find?` over an append tries the left part first. -/
theorem findAppendAux {α : Type u} (p : α → Bool) :
    ∀ (l1 l2 : List α),
      (l1 ++ l2).find? p =
        match l1.find? p with
        | some x => some x
        | none => l2.find? p := by
  intro l1 l2
  induction l1 with
  | nil => simp
  | cons x xs ih =>
      by_cases h : p x
      · simp [List.find?, h]
      · simp [List.find?, h, ih]

/-- The `all`-bucket fold keeps overwriting its accumulator, so it computes
the *last* matching entry (the first match of the reversed bucket), with the
initial accumulator as fallback. -/
theorem scanAllBucketFoldAux {H : Type u} (path : String) :
    ∀ (bucket : List (String × H)) (acc : Option H),
      bucket.foldl (fun a e => if routeRegexTest e.1 path then some e.2 else a) acc =
        match bucket.reverse.find? (fun e => routeRegexTest e.1 path) with
        | some e => some e.2
        | none => acc := by
  intro bucket
  induction bucket with
  | nil => intro acc; simp
  | cons x xs ih =>
      intro acc
      simp only [List.foldl_cons, List.reverse_cons]
      rw [ih, findAppendAux]
      cases hf : xs.reverse.find? (fun e => routeRegexTest e.1 path) with
      | some e => rfl
      | none =>
          by_cases hx : routeRegexTest x.1 path
          · simp [List.find?, hx]
          · simp [List.find?, hx]

/-- Setting a key makes it retrievable with the new value. -/
theorem jsMapGetSetSelf {V : Type u} :
    ∀ (m : List (String × V)) (k : String) (v : V),
      jsMapGet? (jsMapSet m k v) k = some v := by
  intro m k v
  induction m with
  | nil => simp [jsMapSet, jsMapGet?]
  | cons e rest ih =>
      cases e with
      | mk k' w =>
          by_cases h : k' = k
          · simp [jsMapSet, jsMapGet?, h]
          · simp [jsMapSet, jsMapGet?, h, ih]

/-- Setting an existing key keeps the key list — order and positions —
unchanged. -/
theorem jsMapSetKeysMem {V : Type u} :
    ∀ (m : List (String × V)) (k : String) (v : V), jsMapHas m k = true →
      (jsMapSet m k v).map Prod.fst = m.map Prod.fst := by
  intro m k v hmem
  induction m with
  | nil => simp [jsMapHas, jsMapGet?] at hmem
  | cons e rest ih =>
      cases e with
      | mk k' w =>
          by_cases h : k' = k
          · simp [jsMapSet, h]
          · have : jsMapHas rest k = true := by
              simpa [jsMapHas, jsMapGet?, h] using hmem
            simp [jsMapSet, h, ih this]

/-- Setting a fresh key appends it at the end of the key list. -/
theorem jsMapSetKeysNew {V : Type u} :
    ∀ (m : List (String × V)) (k : String) (v : V), jsMapHas m k = false →
      (jsMapSet m k v).map Prod.fst = m.map Prod.fst ++ [k] := by
  intro m k v hmem
  induction m with
  | nil => simp [jsMapSet]
  | cons e rest ih =>
      cases e with
      | mk k' w =>
          by_cases h : k' = k
          · simp [jsMapHas, jsMapGet?, h] at hmem
          · have : jsMapHas rest k = false := by
              simpa [jsMapHas, jsMapGet?, h] using hmem
            simp [jsMapSet, h, ih this]

/-- An absent key is not among the key list. -/
theorem jsMapHasFalseNotMem {V : Type u} :
    ∀ (m : List (String × V)) (k : String), jsMapHas m k = false →
      k ∉ m.map Prod.fst := by
  intro m k hmem
  induction m with
  | nil => simp
  | cons e rest ih =>
      cases e with
      | mk k' w =>
          by_cases h : k' = k
          · simp [jsMapHas, jsMapGet?, h] at hmem
          · have : jsMapHas rest k = false := by
              simpa [jsMapHas, jsMapGet?, h] using hmem
            simp [h, ih this]
            exact fun hk => h hk.symm

/-! ## Properties -/

/-- C1: For every invocation, the first response-producing call (`send`,
`json`, `redirect`, `empty`, `sendFile`, `render`) sets the response
descriptor; any subsequent response-producing call within the same invocation
raises the multi-return error immediately on that second call, the descriptor
set by the first call is not overwritten, and — because the error propagates
out of the handler and out of `attach` — the first response is not emitted. -/
theorem singleResponseInvariant (engines : List String) (deps : JSMap Nat)
    (c1 c2 : RespOp) (fns : Compressors)
    (h1 : opWellFormed engines c1) (h2 : opWellFormed engines c2) :
    (runOp c1 ⟨none, [], engines, deps⟩).2 = none ∧
    ((runOp c1 ⟨none, [], engines, deps⟩).1).dynamic.isSome = true ∧
    (runOp c2 (runOp c1 ⟨none, [], engines, deps⟩).1).2 = some multiReturnMessage ∧
    ((runOp c2 (runOp c1 ⟨none, [], engines, deps⟩).1).1).dynamic =
      ((runOp c1 ⟨none, [], engines, deps⟩).1).dynamic ∧
    (handleRequest (singleRouteConfig "/t" (twoCallHandler c1 c2) engines deps)
        ⟨"get", "/t", []⟩ fns).outcome = Except.error multiReturnMessage := by
  obtain ⟨d, hd⟩ := runOp_fresh ⟨none, [], engines, deps⟩ c1 rfl h1
  have hprep :=
    runOp_prepared ⟨some d, [], engines, deps⟩ c2 (by simp) h2
  have hdisp :
      (handleRequest (singleRouteConfig "/t" (twoCallHandler c1 c2) engines deps)
          ⟨"get", "/t", []⟩ fns).outcome = Except.error multiReturnMessage := by
    have hpath : requestPathOf "/t" = "/t" := by decide
    simp only [handleRequest, singleRouteConfig, hpath, resolveRoute, jsMapGet?,
      if_pos, initialCtx, runIncoming]
    simp only [twoCallHandler, hd, hprep]
    rfl
  refine ⟨by rw [hd], by rw [hd]; rfl, ?_, ?_, hdisp⟩
  · rw [hd]
    exact congrArg Prod.snd hprep
  · rw [hd]
    exact congrArg (fun p => p.1.dynamic) hprep

/-- C1 witness: two plain `send` calls in one invocation. -/
theorem singleResponseInvariantWitness :
    (runOp (.send (.str "ok") 200 "text/plain") ⟨none, [], [], ⟨[], none⟩⟩).2 = none ∧
    ((runOp (.send (.str "ok") 200 "text/plain") ⟨none, [], [], ⟨[], none⟩⟩).1).dynamic.isSome = true ∧
    (runOp (.send (.str "ok") 200 "text/plain")
        (runOp (.send (.str "ok") 200 "text/plain") ⟨none, [], [], ⟨[], none⟩⟩).1).2 =
      some multiReturnMessage ∧
    ((runOp (.send (.str "ok") 200 "text/plain")
        (runOp (.send (.str "ok") 200 "text/plain") ⟨none, [], [], ⟨[], none⟩⟩).1).1).dynamic =
      ((runOp (.send (.str "ok") 200 "text/plain") ⟨none, [], [], ⟨[], none⟩⟩).1).dynamic ∧
    (handleRequest
        (singleRouteConfig "/t"
          (twoCallHandler (.send (.str "ok") 200 "text/plain")
            (.send (.str "ok") 200 "text/plain")) [] ⟨[], none⟩)
        ⟨"get", "/t", []⟩ idCompressors).outcome = Except.error multiReturnMessage :=
  singleResponseInvariant [] ⟨[], none⟩ (.send (.str "ok") 200 "text/plain")
    (.send (.str "ok") 200 "text/plain") idCompressors trivial trivial

/-- C2 counterexample: the registry is *not* cleared by an invocation.  A
`Repo` instance injected before one invocation is still present after the
dispatcher returns (only a spurious `length` property was written), and a
subsequent invocation that calls `retrieve` for that type succeeds without
re-injection — the claimed "retrieve … fails in a subsequent invocation" is
false. -/
theorem dependencyRegistryPersistsCounterexample :
    inject ⟨[], none⟩ "Repo" "" 7 = Except.ok ⟨[("Repo", 7)], none⟩ ∧
    (handleRequest
        (singleRouteConfig "/ping" (producerHandler pongDescriptor) []
          ⟨[("Repo", 7)], none⟩)
        ⟨"get", "/ping", []⟩ idCompressors).outcome = Except.ok pongDescriptor ∧
    (handleRequest
        (singleRouteConfig "/ping" (producerHandler pongDescriptor) []
          ⟨[("Repo", 7)], none⟩)
        ⟨"get", "/ping", []⟩ idCompressors).ctx.deps = ⟨[("Repo", 7)], some 0⟩ ∧
    (handleRequest
        (retrieveRepoConfig
          (handleRequest
              (singleRouteConfig "/ping" (producerHandler pongDescriptor) []
                ⟨[("Repo", 7)], none⟩)
              ⟨"get", "/ping", []⟩ idCompressors).ctx.deps "")
        ⟨"get", "/repo", []⟩ idCompressors).outcome =
      Except.ok ⟨Body.obj 7, 200, []⟩ :=
  ⟨rfl, rfl, rfl, rfl⟩

/-- C2 amended: `#clearDependencies` runs before the invocation returns on
every path through `#processHandlerResult`, but it only assigns a `length`
property on the `Map` and removes no entry; consequently an instance injected
before one invocation is still retrievable in a subsequent invocation without
re-injection. -/
theorem dependencyRegistryClearIsNoOp :
    (∀ (m : JSMap Nat),
      (clearDependencies m).entries = m.entries ∧
      (clearDependencies m).lengthProp = some 0) ∧
    inject ⟨[], none⟩ "Repo" "one" 5 = Except.ok ⟨[("Repo:one", 5)], none⟩ ∧
    (handleRequest
        (singleRouteConfig "/ping" (producerHandler pongDescriptor) []
          ⟨[("Repo:one", 5)], none⟩)
        ⟨"get", "/ping", []⟩ idCompressors).ctx.deps =
      ⟨[("Repo:one", 5)], some 0⟩ ∧
    (handleRequest (retrieveRepoConfig ⟨[("Repo:one", 5)], some 0⟩ "one")
        ⟨"get", "/repo", []⟩ idCompressors).outcome =
      Except.ok ⟨Body.obj 5, 200, []⟩ :=
  ⟨fun _ => ⟨rfl, rfl⟩, rfl, rfl, rfl⟩

/-- C3: If the incoming middleware at position `pre.length` is the first to
produce a response (an inert prefix `pre` before it, a descriptor `d` after
it), then exactly `pre.length + 1` incoming middlewares run — the members of
`post` are never invoked — the route handler is never invoked, every
registered outgoing middleware runs over that response (provided none of them
throws), and the invocation's outcome is that response after the outgoing
chain and compression. -/
theorem middlewareShortCircuit (cfg : AppConfig) (req : HostRequest)
    (fns : Compressors) (pre post : List Handler) (producer : Handler)
    (ctx' : InvocationCtx) (d : Descriptor)
    (hsplit : cfg.incoming = pre ++ producer :: post)
    (hpre : inertOn pre (initialCtx cfg))
    (hprod : producer (applyInert pre (initialCtx cfg)) = (ctx', none))
    (hdyn : ctx'.dynamic = some d)
    (hout : (runOutgoing cfg.outgoing { d with body := awaitBody d.body }).2.2 = none) :
    (handleRequest cfg req fns).ranHandler = false ∧
    (handleRequest cfg req fns).ranIncoming = pre.length + 1 ∧
    (handleRequest cfg req fns).ranOutgoing = cfg.outgoing.length ∧
    (handleRequest cfg req fns).outcome =
      Except.ok
        (compressDynamic cfg.compression cfg.compressionLevel fns req.headers
          (runOutgoing cfg.outgoing { d with body := awaitBody d.body }).1) := by
  have hrun : runIncoming cfg.incoming (initialCtx cfg) = (ctx', pre.length + 1, none) := by
    rw [hsplit, runIncoming_append_inert pre (producer :: post) _ hpre]
    simp only [runIncoming, hprod]
    simp [hdyn, Nat.add_comm]
  obtain ⟨dyn', n, e, hro⟩ :
      ∃ a b c, runOutgoing cfg.outgoing { d with body := awaitBody d.body } = (a, b, c) :=
    ⟨_, _, _, rfl⟩
  have he : e = none := by rw [hro] at hout; exact hout
  subst he
  have hn : n = cfg.outgoing.length := by
    have := runOutgoing_count cfg.outgoing { d with body := awaitBody d.body }
      (by rw [hro])
    rw [hro] at this
    exact this
  subst hn
  have hproc :
      processHandlerResult cfg req fns ctx' =
        ({ ctx' with deps := clearDependencies ctx'.deps },
          Except.ok
            (compressDynamic cfg.compression cfg.compressionLevel fns req.headers dyn'),
          cfg.outgoing.length) := by
    simp only [processHandlerResult, hdyn, hro]
  have hres : handleRequest cfg req fns =
      ⟨{ ctx' with deps := clearDependencies ctx'.deps },
        Except.ok
          (compressDynamic cfg.compression cfg.compressionLevel fns req.headers dyn'),
        pre.length + 1, false, cfg.outgoing.length⟩ := by
    simp only [handleRequest, hrun, hdyn, Option.isSome_some, if_true, hproc]
  rw [hres, hro]
  exact ⟨rfl, rfl, rfl, rfl⟩

/-- C3 witness: one response-producing middleware ahead of another middleware
and a `GET /t` route, with two outgoing interceptors registered. -/
theorem middlewareShortCircuitWitness :
    (handleRequest
        ⟨[("/t", producerHandler pongDescriptor)], [],
          [producerMiddleware ⟨.str "mw", 200, [("content-type", .str "text/plain")]⟩,
            producerMiddleware pongDescriptor],
          [passOutgoing, statusOutgoing 201], [], ⟨[], none⟩, .flag true, ⟨11, 6, 6⟩⟩
        ⟨"get", "/t", []⟩ idCompressors).ranHandler = false ∧
    (handleRequest
        ⟨[("/t", producerHandler pongDescriptor)], [],
          [producerMiddleware ⟨.str "mw", 200, [("content-type", .str "text/plain")]⟩,
            producerMiddleware pongDescriptor],
          [passOutgoing, statusOutgoing 201], [], ⟨[], none⟩, .flag true, ⟨11, 6, 6⟩⟩
        ⟨"get", "/t", []⟩ idCompressors).ranIncoming = 1 ∧
    (handleRequest
        ⟨[("/t", producerHandler pongDescriptor)], [],
          [producerMiddleware ⟨.str "mw", 200, [("content-type", .str "text/plain")]⟩,
            producerMiddleware pongDescriptor],
          [passOutgoing, statusOutgoing 201], [], ⟨[], none⟩, .flag true, ⟨11, 6, 6⟩⟩
        ⟨"get", "/t", []⟩ idCompressors).ranOutgoing = 2 ∧
    (handleRequest
        ⟨[("/t", producerHandler pongDescriptor)], [],
          [producerMiddleware ⟨.str "mw", 200, [("content-type", .str "text/plain")]⟩,
            producerMiddleware pongDescriptor],
          [passOutgoing, statusOutgoing 201], [], ⟨[], none⟩, .flag true, ⟨11, 6, 6⟩⟩
        ⟨"get", "/t", []⟩ idCompressors).outcome =
      Except.ok ⟨.str "mw", 201, [("content-type", .str "text/plain")]⟩ := by
  have h := middlewareShortCircuit
    ⟨[("/t", producerHandler pongDescriptor)], [],
      [producerMiddleware ⟨.str "mw", 200, [("content-type", .str "text/plain")]⟩,
        producerMiddleware pongDescriptor],
      [passOutgoing, statusOutgoing 201], [], ⟨[], none⟩, .flag true, ⟨11, 6, 6⟩⟩
    ⟨"get", "/t", []⟩ idCompressors []
    [producerMiddleware pongDescriptor]
    (producerMiddleware ⟨.str "mw", 200, [("content-type", .str "text/plain")]⟩)
    ⟨some ⟨.str "mw", 200, [("content-type", .str "text/plain")]⟩, [], [], ⟨[], none⟩⟩
    ⟨.str "mw", 200, [("content-type", .str "text/plain")]⟩
    rfl trivial rfl rfl rfl
  exact ⟨h.1, h.2.1, h.2.2.1, h.2.2.2⟩

/-- C4 counterexample: with `all('/a/:b')` and `all('*')` registered, the
request `/a/x` resolves to the `'*'` handler even though `/a/:b` matches —
the literal `'*'` is *not* excluded from the `all`-bucket scan pass (it
participates as `.*` and, scanning without short-circuit, overrides the
earlier match), so it is not merely a lowest-priority fallback there. -/
theorem wildcardAllBucketCounterexample :
    routeRegexTest "/a/:b" "/a/x" = true ∧
    scanAllBucket [("/a/:b", 1), ("*", 2)] "/a/x" = some 2 ∧
    resolveRoute ([] : List (String × Nat)) [("/a/:b", 1), ("*", 2)] "/a/x" = some 2 := by
  decide

/-- C4 amended: the literal `'*'` is excluded from the regex-based scan pass
of the *method* bucket only, where it is consulted as a lowest-priority
fallback; in the `all` bucket it takes part in the scan (compiled to `.*`,
subject to that scan's last-match rule).  The claim's concrete examples hold
when the routes live in the method bucket: with `/a`, `/a/:b` and `*`
registered there, `/a/x` resolves to `/a/:b` and `/zzz` to `*`. -/
theorem wildcardPriorityAmended :
    (∀ (bucket : List (String × Nat)) (path : String),
      scanMethodBucket bucket path =
        scanMethodBucket (bucket.filter (fun e => e.1 != "*")) path) ∧
    resolveRoute [("/a", 1), ("/a/:b", 2), ("*", 3)] ([] : List (String × Nat)) "/a/x" =
      some 2 ∧
    resolveRoute [("/a", 1), ("/a/:b", 2), ("*", 3)] ([] : List (String × Nat)) "/zzz" =
      some 3 ∧
    scanAllBucket [("/a/:b", 1), ("*", 2)] "/a/x" = some 2 :=
  ⟨fun bucket path => scanMethodBucketFilterStar bucket path, by decide, by decide,
    by decide⟩

/-- C5: Pattern matching is segment-count exact with each named parameter
capturing exactly one segment, in declaration order: `/user/:id` matches
`/user/42` extracting `id = "42"`, and matches neither `/user/42/extra` nor
`/user`; two parameters are captured left to right. -/
theorem patternSpecificity :
    routeRegexTest "/user/:id" "/user/42" = true ∧
    extractParamsFromRoute "/user/42" "/user/:id" = some [("id", "42")] ∧
    routeRegexTest "/user/:id" "/user/42/extra" = false ∧
    routeRegexTest "/user/:id" "/user" = false ∧
    extractParamsFromRoute "/router/cafe/0835" "/router/:user/:transaction" =
      some [("user", "cafe"), ("transaction", "0835")] := by
  decide

/-- C6: When neither the exact lookup nor the method-bucket scan matches, the
resolver scans the entire `all` bucket without short-circuiting and selects
the handler of the *last* matching pattern in registration order: in general
the scan equals the first match of the reversed bucket, the resolver hands
back exactly that scan result whenever it is non-empty, and on a concrete
table with two matching `all` patterns the later-registered one wins in
either registration order. -/
theorem allBucketLastMatchWins :
    (∀ (bucket : List (String × Nat)) (path : String),
      scanAllBucket bucket path =
        (bucket.reverse.find? (fun e => routeRegexTest e.1 path)).map Prod.snd) ∧
    (∀ (mb ab : List (String × Nat)) (path : String),
      jsMapGet? mb path = none → scanMethodBucket mb path = none →
      (scanAllBucket ab path).isSome = true →
      resolveRoute mb ab path = scanAllBucket ab path) ∧
    resolveRoute ([] : List (String × Nat)) [("/x/:a", 1), ("/x/y", 2)] "/x/y" = some 2 ∧
    resolveRoute ([] : List (String × Nat)) [("/x/y", 2), ("/x/:a", 1)] "/x/y" = some 1 := by
  refine ⟨?_, ?_, by decide, by decide⟩
  · intro bucket path
    rw [scanAllBucket, scanAllBucketFoldAux]
    cases bucket.reverse.find? (fun e => routeRegexTest e.1 path) with
    | some e => rfl
    | none => rfl
  · intro mb ab path hget hscan hsome
    obtain ⟨h, hh⟩ : ∃ h, scanAllBucket ab path = some h := by
      cases hs : scanAllBucket ab path with
      | some h => exact ⟨h, rfl⟩
      | none => rw [hs] at hsome; simp at hsome
    simp [resolveRoute, hget, hscan, hh]

/-- C6 witness: an empty method bucket and an `all` bucket whose two patterns
both match the request path. -/
theorem allBucketLastMatchWinsWitness :
    resolveRoute ([] : List (String × Nat)) [("/x/:a", 1), ("/x/y", 2)] "/x/y" =
      scanAllBucket [("/x/:a", 1), ("/x/y", 2)] "/x/y" :=
  (allBucketLastMatchWins.2.1 [] [("/x/:a", 1), ("/x/y", 2)] "/x/y"
    (by decide) (by decide) (by decide))

/-- C7: For every request whose method and path match no registered route
(exact, pattern scan, `all` bucket, or wildcard fallback), and whose incoming
middlewares run without producing a response or throwing, the dispatcher does
not throw: it returns an ordinary response descriptor whose body carries
"Cannot METHOD 'path'." at the error status 500 with a plain-text content
type. -/
theorem unmatchedRouteErrorResult (cfg : AppConfig) (req : HostRequest)
    (fns : Compressors)
    (hres : resolveRoute cfg.methodBucket cfg.allBucket (requestPathOf req.path) = none)
    (hin : inertOn cfg.incoming (initialCtx cfg)) :
    (handleRequest cfg req fns).outcome =
      Except.ok
        ⟨.str ("Cannot " ++ jsToUpper (requestMethod req) ++ " '" ++
            requestPathOf req.path ++ "'."),
          500, [("content-type", .str "text/plain")]⟩ := by
  have hrun := runIncoming_inert cfg.incoming (initialCtx cfg) hin
  have hdyn := applyInert_dynamic cfg.incoming (initialCtx cfg) hin rfl
  simp only [handleRequest, hrun, hres, hdyn]
  simp [sendErrorResult, hostSend]

/-- C7 witness: `GET /nope` against an instance with no routes. -/
theorem unmatchedRouteErrorResultWitness :
    (handleRequest emptyRoutesConfig ⟨"get", "/nope", []⟩ idCompressors).outcome =
      Except.ok
        ⟨.str "Cannot GET '/nope'.", 500, [("content-type", .str "text/plain")]⟩ := by
  have h := unmatchedRouteErrorResult emptyRoutesConfig ⟨"get", "/nope", []⟩
    idCompressors rfl trivial
  exact h

/-- C8: Under default compression (`#compression === true`): if the request
carries no (or an empty) `accept-encoding` header, or the body is neither a
string nor a `Buffer`, or the response `content-type` is not in the
compressible allow-list, the descriptor passes through unchanged; otherwise
the first encoding in the preference order `br` > `gzip` > `deflate` that the
client accepts is applied with the configured quality level, the
`content-encoding` header is set to that encoding, the body is replaced by
the compressor output, and `content-length` is recomputed to the compressed
body's length. -/
theorem defaultCompressionBehaviour (fns : Compressors) (levels : CompressionLevels)
    (reqHeaders : List (String × String)) (dyn : Descriptor) :
    ((jsMapGet? reqHeaders "accept-encoding" = none ∨
        jsMapGet? reqHeaders "accept-encoding" = some "") →
      compressDynamic (.flag true) levels fns reqHeaders dyn = dyn) ∧
    (bodyToBuffer dyn.body = none →
      compressDynamic (.flag true) levels fns reqHeaders dyn = dyn) ∧
    (headerCompressible (jsMapGet? dyn.headers "content-type") = false →
      compressDynamic (.flag true) levels fns reqHeaders dyn = dyn) ∧
    (∀ (ae : String) (buffer : List Nat),
      jsMapGet? reqHeaders "accept-encoding" = some ae → ¬ ae = "" →
      bodyToBuffer dyn.body = some buffer →
      headerCompressible (jsMapGet? dyn.headers "content-type") = true →
      ((((jsSplit ae ',').map jsTrim).contains "br" = true →
        compressDynamic (.flag true) levels fns reqHeaders dyn =
          { dyn with
            body := .buf (fns.brC levels.br buffer)
            headers :=
              jsMapSet (jsMapSet dyn.headers "content-encoding" (.str "br"))
                "content-length" (.num (fns.brC levels.br buffer).length) }) ∧
      (((jsSplit ae ',').map jsTrim).contains "br" = false →
        ((jsSplit ae ',').map jsTrim).contains "gzip" = true →
        compressDynamic (.flag true) levels fns reqHeaders dyn =
          { dyn with
            body := .buf (fns.gzipC levels.gzip buffer)
            headers :=
              jsMapSet (jsMapSet dyn.headers "content-encoding" (.str "gzip"))
                "content-length" (.num (fns.gzipC levels.gzip buffer).length) }) ∧
      (((jsSplit ae ',').map jsTrim).contains "br" = false →
        ((jsSplit ae ',').map jsTrim).contains "gzip" = false →
        ((jsSplit ae ',').map jsTrim).contains "deflate" = true →
        compressDynamic (.flag true) levels fns reqHeaders dyn =
          { dyn with
            body := .buf (fns.deflateC levels.deflate buffer)
            headers :=
              jsMapSet (jsMapSet dyn.headers "content-encoding" (.str "deflate"))
                "content-length" (.num (fns.deflateC levels.deflate buffer).length) }))) := by
  refine ⟨?_, ?_, ?_, ?_⟩
  · rintro (h | h) <;> simp [compressDynamic, compressionTruthy, h]
  · intro hb
    cases hae : jsMapGet? reqHeaders "accept-encoding" with
    | none => simp [compressDynamic, compressionTruthy, hae]
    | some ae =>
        by_cases he : ae = ""
        · simp [compressDynamic, compressionTruthy, hae, he]
        · simp [compressDynamic, compressionTruthy, hae, he, hb]
  · intro hct
    cases hae : jsMapGet? reqHeaders "accept-encoding" with
    | none => simp [compressDynamic, compressionTruthy, hae]
    | some ae =>
        by_cases he : ae = ""
        · simp [compressDynamic, compressionTruthy, hae, he]
        · cases hb : bodyToBuffer dyn.body with
          | none => simp [compressDynamic, compressionTruthy, hae, he, hb]
          | some buffer =>
              simp [compressDynamic, compressionTruthy, hae, he, hb,
                userCompression, defaultCompression, hct]
  · intro ae buffer hae he hb hct
    refine ⟨?_, ?_, ?_⟩
    · intro hbr
      have hbr' : ∃ a ∈ jsSplit ae ',', jsTrim a = "br" := by simpa using hbr
      simp [compressDynamic, compressionTruthy, hae, he, hb, userCompression,
        defaultCompression, hct, hbr', updateDynamic]
    · intro hbr hgz
      have hnbr : ¬ ∃ a ∈ jsSplit ae ',', jsTrim a = "br" := by
        simpa [not_exists] using hbr
      have hgz' : ∃ a ∈ jsSplit ae ',', jsTrim a = "gzip" := by simpa using hgz
      simp [compressDynamic, compressionTruthy, hae, he, hb, userCompression,
        defaultCompression, hct, hnbr, hgz', updateDynamic]
    · intro hbr hgz hdf
      have hnbr : ¬ ∃ a ∈ jsSplit ae ',', jsTrim a = "br" := by
        simpa [not_exists] using hbr
      have hngz : ¬ ∃ a ∈ jsSplit ae ',', jsTrim a = "gzip" := by
        simpa [not_exists] using hgz
      have hdf' : ∃ a ∈ jsSplit ae ',', jsTrim a = "deflate" := by simpa using hdf
      simp [compressDynamic, compressionTruthy, hae, he, hb, userCompression,
        defaultCompression, hct, hnbr, hngz, hdf', updateDynamic]

/-- C8 witness: a compressible `text/html` string body with
`accept-encoding: gzip, br` picks `br`, and skip cases at concrete inputs. -/
theorem defaultCompressionBehaviourWitness :
    compressDynamic (.flag true) ⟨11, 6, 6⟩ idCompressors
        [("accept-encoding", "gzip, br")]
        ⟨.str "hello", 200, [("content-type", .str "text/html")]⟩ =
      ⟨.buf [104, 101, 108, 108, 111], 200,
        [("content-type", .str "text/html"), ("content-encoding", .str "br"),
          ("content-length", .num 5)]⟩ ∧
    compressDynamic (.flag true) ⟨11, 6, 6⟩ idCompressors []
        ⟨.str "hello", 200, [("content-type", .str "text/html")]⟩ =
      ⟨.str "hello", 200, [("content-type", .str "text/html")]⟩ := by
  constructor
  · have h := (defaultCompressionBehaviour idCompressors ⟨11, 6, 6⟩
      [("accept-encoding", "gzip, br")]
      ⟨.str "hello", 200, [("content-type", .str "text/html")]⟩).2.2.2
      "gzip, br" [104, 101, 108, 108, 111] (by decide) (by decide) (by decide)
      (by decide)
    have hbr := h.1 (by decide)
    exact hbr.trans (by decide)
  · exact (defaultCompressionBehaviour idCompressors ⟨11, 6, 6⟩ []
      ⟨.str "hello", 200, [("content-type", .str "text/html")]⟩).1 (Or.inl (by decide))

/-- C9: `compression(value, options)` is not atomic on error: for every
three-key options object with any level out of range (`br` outside 1–11,
`gzip` or `deflate` outside 1–9), the call throws
"Invalid compression level provided.", but `#compression` has already been
assigned the new value before the throw, while the previously configured
`#compressionLevel` is left unchanged. -/
theorem compressionCallNonAtomic (st : CompressionState) (value : CompressionValue)
    (options : CompressionLevels)
    (h : options.br < 1 ∨ 11 < options.br ∨ options.gzip < 1 ∨ 9 < options.gzip ∨
      options.deflate < 1 ∨ 9 < options.deflate) :
    compressionCall st value options =
      (⟨value, st.compressionLevel⟩, some "Invalid compression level provided.") := by
  by_cases h1 : options.br < 1 ∨ 11 < options.br
  · have e1 : validateCompression options.br 1 11 =
        some "Invalid compression level provided." := by
      unfold validateCompression
      rcases h1 with h1 | h1 <;> simp [h1]
    simp [compressionCall, e1]
  · have e1 : validateCompression options.br 1 11 = none := by
      simp only [not_or, not_lt] at h1
      simp [validateCompression, not_lt.mpr h1.1, not_lt.mpr h1.2]
    by_cases h2 : options.gzip < 1 ∨ 9 < options.gzip
    · have e2 : validateCompression options.gzip 1 9 =
          some "Invalid compression level provided." := by
        unfold validateCompression
        rcases h2 with h2 | h2 <;> simp [h2]
      simp [compressionCall, e1, e2]
    · have e2 : validateCompression options.gzip 1 9 = none := by
        simp only [not_or, not_lt] at h2
        simp [validateCompression, not_lt.mpr h2.1, not_lt.mpr h2.2]
      have h3 : options.deflate < 1 ∨ 9 < options.deflate := by
        rcases h with h | h | h | h | h | h
        · exact absurd (Or.inl h) h1
        · exact absurd (Or.inr h) h1
        · exact absurd (Or.inl h) h2
        · exact absurd (Or.inr h) h2
        · exact Or.inl h
        · exact Or.inr h
      have e3 : validateCompression options.deflate 1 9 =
          some "Invalid compression level provided." := by
        unfold validateCompression
        rcases h3 with h3 | h3 <;> simp [h3]
      simp [compressionCall, e1, e2, e3]

/-- C9 witness: a br level of 0 on an instance previously at the defaults
with compression enabled, being switched off. -/
theorem compressionCallNonAtomicWitness :
    compressionCall ⟨.flag true, ⟨11, 6, 6⟩⟩ (.flag false) ⟨0, 6, 6⟩ =
      (⟨.flag false, ⟨11, 6, 6⟩⟩, some "Invalid compression level provided.") :=
  compressionCallNonAtomic ⟨.flag true, ⟨11, 6, 6⟩⟩ (.flag false) ⟨0, 6, 6⟩
    (Or.inl (by decide))

/-- C10: Registering a route for a (method, pattern) pair that is already
registered never raises and does not create a duplicate entry: the lookup now
yields the new handler, a re-registered pattern keeps its original position
in the registration order (the key list is unchanged), a fresh pattern is
appended at the end, and a route table whose patterns are unique stays
unique. -/
theorem routeReRegistrationReplaces (routes : RequestMethods Nat) (p : String)
    (h : Nat) :
    jsMapGet? (appExpressGet routes p h).get p = some h ∧
    (jsMapHas routes.get p = true →
      (appExpressGet routes p h).get.map Prod.fst = routes.get.map Prod.fst) ∧
    (jsMapHas routes.get p = false →
      (appExpressGet routes p h).get.map Prod.fst =
        routes.get.map Prod.fst ++ [p]) ∧
    ((routes.get.map Prod.fst).Nodup →
      ((appExpressGet routes p h).get.map Prod.fst).Nodup) := by
  refine ⟨jsMapGetSetSelf routes.get p h, ?_, ?_, ?_⟩
  · intro hmem
    exact jsMapSetKeysMem routes.get p h hmem
  · intro hmem
    exact jsMapSetKeysNew routes.get p h hmem
  · intro hnd
    by_cases hmem : jsMapHas routes.get p = true
    · rw [show (appExpressGet routes p h).get = jsMapSet routes.get p h from rfl,
        jsMapSetKeysMem routes.get p h hmem]
      exact hnd
    · have hfalse : jsMapHas routes.get p = false := by
        cases hv : jsMapHas routes.get p
        · rfl
        · exact absurd hv hmem
      rw [show (appExpressGet routes p h).get = jsMapSet routes.get p h from rfl,
        jsMapSetKeysNew routes.get p h hfalse]
      have hnotin := jsMapHasFalseNotMem routes.get p hfalse
      simp [List.nodup_append, hnd]
      intro x hx
      exact hnotin (List.mem_map_of_mem Prod.fst hx)

/-- C10 witness: re-registering `/a` on a table `[("/a", 1)]` replaces the
handler in place; registering `/b` afterwards appends. -/
theorem routeReRegistrationReplacesWitness :
    jsMapGet? (appExpressGet (appExpressGet requestMethods "/a" 1) "/a" 2).get "/a" =
      some 2 ∧
    (appExpressGet (appExpressGet requestMethods "/a" 1) "/a" 2).get.map Prod.fst =
      (appExpressGet requestMethods "/a" 1).get.map Prod.fst ∧
    ((appExpressGet (appExpressGet requestMethods "/a" 1) "/a" 2).get.map
      Prod.fst).Nodup := by
  have h := routeReRegistrationReplaces (appExpressGet requestMethods "/a" 1) "/a" 2
  exact ⟨h.1, h.2.1 (by decide), h.2.2.2 (by decide)⟩
